import Mathlib

/-!
Shallow embedding of the `outbound-guard` resilient HTTP client core
(rolling window, circuit breaker, concurrency limiter, request pipeline),
together with theorems checking the natural-language specification
against the code.

Sources embedded:
* `src/utils/rollingWindow.ts` — `RollingWindow`
* `src/breaker.ts`             — `CircuitBreaker`
* `src/limiter.ts`             — `ConcurrencyLimiter`
* `src/client.ts`              — `ResilientHttpClient.request`
-/

namespace OutboundGuard

/-! ## Rolling window (`src/utils/rollingWindow.ts`) -/

/-- Embedding of the `RollingWindow` class state: a fixed ring `buf` of
length `size`, a write index `idx`, and a `filled` flag. -/
structure RollingWindow where
  size : ℕ
  buf : List ℕ
  idx : ℕ
  filled : Bool
  deriving Repr, DecidableEq

namespace RollingWindow

/-- `new RollingWindow(size)`: ring of zeros, index 0, not filled. -/
def mk0 (size : ℕ) : RollingWindow :=
  ⟨size, List.replicate size 0, 0, false⟩

/-- `push(value)`: overwrite the slot at `idx`, advance the index modulo
`size`, and set `filled` when the index wraps to 0. -/
def push (w : RollingWindow) (v : ℕ) : RollingWindow :=
  { w with buf := w.buf.set w.idx v,
           idx := (w.idx + 1) % w.size,
           filled := w.filled || (((w.idx + 1) % w.size) == 0) }

/-- `count()`: `size` when filled, else the write index. -/
def count (w : RollingWindow) : ℕ :=
  if w.filled then w.size else w.idx

/-- `failures()`: sum of the first `count()` ring slots. -/
def fails (w : RollingWindow) : ℕ :=
  (w.buf.take w.count).sum

/-- `failureRate()`: `failures / count`, defined as 0 when `count = 0`. -/
def failureRate (w : RollingWindow) : ℚ :=
  if w.count = 0 then 0 else (w.fails : ℚ) / (w.count : ℚ)

/-- `reset()`: zero the ring in place, clear index and filled flag. -/
def reset (w : RollingWindow) : RollingWindow :=
  ⟨w.size, List.replicate w.buf.length 0, 0, false⟩

/-- Push a whole history of outcomes in order (oldest first). -/
def pushAll (w : RollingWindow) (hs : List ℕ) : RollingWindow :=
  hs.foldl push w

theorem pushAll_append (w : RollingWindow) (hs : List ℕ) (v : ℕ) :
    pushAll w (hs ++ [v]) = (pushAll w hs).push v := by
  simp [pushAll, List.foldl_append]

/-- Layout of the ring buffer after the history `hs` has been pushed into a
fresh window: before wrapping the buffer is the history padded with zeros;
after wrapping it is the most recent `idx` outcomes followed by the older
part of the last `size` outcomes. -/
def ringInv (w : RollingWindow) (hs : List ℕ) : Prop :=
  w.buf.length = w.size ∧
  w.idx = hs.length % w.size ∧
  (w.filled = true ↔ w.size ≤ hs.length) ∧
  (if hs.length < w.size
    then w.buf = hs ++ List.replicate (w.size - hs.length) 0
    else w.buf =
      hs.drop (hs.length - w.idx) ++
        (hs.drop (hs.length - w.size)).take (w.size - w.idx))

theorem ringInv_mk0 {N : ℕ} (hN : 1 ≤ N) : ringInv (mk0 N) [] := by
  refine ⟨by simp [mk0], by simp [mk0], ?_, ?_⟩
  · constructor
    · intro h
      simp [mk0] at h
    · intro h
      simp [mk0] at h
      exact absurd hN (by omega)
  · rw [if_pos (by simpa using hN)]
    simp [mk0]

theorem ringInv_push {w : RollingWindow} {hs : List ℕ} (hN : 1 ≤ w.size)
    (h : ringInv w hs) (v : ℕ) : ringInv (w.push v) (hs ++ [v]) := by
  obtain ⟨hlen, hidx, hfill, hbuf⟩ := h
  have hlen1 : (hs ++ [v]).length = hs.length + 1 := by simp
  have hG1 : (w.push v).buf.length = (w.push v).size := by simp [push, hlen]
  have hG2 : (w.push v).idx = (hs ++ [v]).length % (w.push v).size := by
    show (w.idx + 1) % w.size = (hs ++ [v]).length % w.size
    rw [hlen1, hidx, Nat.mod_add_mod]
  have hsz : (w.push v).size = w.size := rfl
  rcases Nat.lt_or_ge hs.length w.size with hlt | hge
  · -- not yet wrapped: idx = length of history
    have hidx' : w.idx = hs.length := by rw [hidx, Nat.mod_eq_of_lt hlt]
    have hnotfill : w.filled = false := by
      rcases Bool.eq_false_or_eq_true w.filled with h0 | h0
      · exact absurd (hfill.mp h0) (by omega)
      · exact h0
    rw [if_pos hlt] at hbuf
    rcases Nat.lt_or_ge (hs.length + 1) w.size with hlt1 | hge1
    · -- stays unwrapped
      have hmod1 : (w.idx + 1) % w.size = hs.length + 1 := by
        rw [hidx', Nat.mod_eq_of_lt hlt1]
      refine ⟨hG1, hG2, ?_, ?_⟩
      · show (w.filled || (((w.idx + 1) % w.size) == 0)) = true ↔
          w.size ≤ (hs ++ [v]).length
        rw [hlen1, hnotfill, hmod1]
        constructor
        · intro hc
          simp at hc
        · intro hc
          omega
      · rw [hlen1, hsz, if_pos hlt1]
        show w.buf.set w.idx v = (hs ++ [v]) ++ List.replicate (w.size - (hs.length + 1)) 0
        have hrep : w.size - hs.length = (w.size - (hs.length + 1)) + 1 := by omega
        rw [hbuf, hidx', List.set_append, if_neg (by omega)]
        rw [Nat.sub_self, hrep, List.replicate_succ]
        simp
    · -- wraps exactly now: history length + 1 = size
      have heq : hs.length + 1 = w.size := by omega
      have hmod1 : (w.idx + 1) % w.size = 0 := by
        rw [hidx', heq, Nat.mod_self]
      refine ⟨hG1, hG2, ?_, ?_⟩
      · show (w.filled || (((w.idx + 1) % w.size) == 0)) = true ↔
          w.size ≤ (hs ++ [v]).length
        rw [hlen1, hnotfill, hmod1]
        simp
        omega
      · rw [hlen1, hsz, if_neg (by omega)]
        show w.buf.set w.idx v =
          (hs ++ [v]).drop (hs.length + 1 - (w.push v).idx) ++
            ((hs ++ [v]).drop (hs.length + 1 - w.size)).take (w.size - (w.push v).idx)
        have hidxv : (w.push v).idx = 0 := by
          show (w.idx + 1) % w.size = 0
          exact hmod1
        rw [hidxv]
        have h1 : (hs ++ [v]).drop (hs.length + 1 - 0) = [] := by
          apply List.drop_eq_nil_of_le
          simp
        have h2 : ((hs ++ [v]).drop (hs.length + 1 - w.size)).take (w.size - 0) =
            hs ++ [v] := by
          rw [heq, Nat.sub_self, List.drop_zero]
          apply List.take_of_length_le
          simp [heq]
        rw [h1, h2, List.nil_append]
        rw [hbuf, hidx', List.set_append, if_neg (by omega)]
        rw [Nat.sub_self, (by omega : w.size - hs.length = 1)]
        simp
  · -- already wrapped
    have hfill' : w.filled = true := hfill.mpr hge
    have hidxlt : w.idx < w.size := by rw [hidx]; exact Nat.mod_lt _ (by omega)
    rw [if_neg (by omega)] at hbuf
    -- the two halves of the ring
    set A := hs.drop (hs.length - w.idx) with hA
    set B := (hs.drop (hs.length - w.size)).take (w.size - w.idx) with hB
    have hAlen : A.length = w.idx := by
      rw [hA, List.length_drop]; omega
    have hBlen : B.length = w.size - w.idx := by
      rw [hB, List.length_take, List.length_drop]; omega
    have hBne : B ≠ [] := by
      intro hc
      rw [hc] at hBlen
      simp at hBlen
      omega
    obtain ⟨b0, Btl, hBcons⟩ := List.exists_cons_of_ne_nil hBne
    have hset : w.buf.set w.idx v = A ++ v :: Btl := by
      rw [hbuf, List.set_append, if_neg (by omega), hAlen, Nat.sub_self, hBcons]
      simp
    have hBtl : Btl = (hs.drop (hs.length + 1 - w.size)).take (w.size - (w.idx + 1)) := by
      have ht : Btl = B.tail := by rw [hBcons]; rfl
      have e1 : w.size - w.idx - 1 = w.size - (w.idx + 1) := by omega
      have e2 : hs.length - w.size + 1 = hs.length + 1 - w.size := by omega
      rw [ht, hB, ← List.drop_one, List.drop_take, List.drop_drop, e1, e2]
    have hG3 : (w.push v).filled = true ↔ w.size ≤ (hs ++ [v]).length := by
      show (w.filled || (((w.idx + 1) % w.size) == 0)) = true ↔
        w.size ≤ (hs ++ [v]).length
      rw [hlen1, hfill']
      simp
      omega
    rcases Nat.lt_or_ge (w.idx + 1) w.size with hi1 | hi1
    · -- index advances without wrapping
      have hmod1 : (w.idx + 1) % w.size = w.idx + 1 := Nat.mod_eq_of_lt hi1
      refine ⟨hG1, hG2, hG3, ?_⟩
      rw [hlen1, hsz, if_neg (by omega)]
      show w.buf.set w.idx v =
        (hs ++ [v]).drop (hs.length + 1 - (w.push v).idx) ++
          ((hs ++ [v]).drop (hs.length + 1 - w.size)).take (w.size - (w.push v).idx)
      have hidxv : (w.push v).idx = w.idx + 1 := by
        show (w.idx + 1) % w.size = w.idx + 1
        exact hmod1
      rw [hidxv]
      have h1 : (hs ++ [v]).drop (hs.length + 1 - (w.idx + 1)) = A ++ [v] := by
        rw [List.drop_append_of_le_length (by omega), hA]
        congr 2
        omega
      have h2 : ((hs ++ [v]).drop (hs.length + 1 - w.size)).take (w.size - (w.idx + 1)) =
          (hs.drop (hs.length + 1 - w.size)).take (w.size - (w.idx + 1)) := by
        rw [List.drop_append_of_le_length (by omega)]
        exact List.take_append_of_le_length (by rw [List.length_drop]; omega)
      rw [h1, h2, hset, hBtl, List.append_assoc]
      simp
    · -- index wraps to 0
      have heq : w.idx + 1 = w.size := by omega
      have hmod1 : (w.idx + 1) % w.size = 0 := by rw [heq, Nat.mod_self]
      have hBtlnil : Btl = [] := by
        have hl := congrArg List.length hBcons
        rw [hBlen] at hl
        simp at hl
        have : Btl.length = 0 := by omega
        exact List.eq_nil_of_length_eq_zero this
      refine ⟨hG1, hG2, hG3, ?_⟩
      rw [hlen1, hsz, if_neg (by omega)]
      show w.buf.set w.idx v =
        (hs ++ [v]).drop (hs.length + 1 - (w.push v).idx) ++
          ((hs ++ [v]).drop (hs.length + 1 - w.size)).take (w.size - (w.push v).idx)
      have hidxv : (w.push v).idx = 0 := by
        show (w.idx + 1) % w.size = 0
        exact hmod1
      rw [hidxv]
      have h1 : (hs ++ [v]).drop (hs.length + 1 - 0) = [] := by
        apply List.drop_eq_nil_of_le
        simp
      have h2 : ((hs ++ [v]).drop (hs.length + 1 - w.size)).take (w.size - 0) =
          hs.drop (hs.length + 1 - w.size) ++ [v] := by
        rw [List.drop_append_of_le_length (by omega)]
        apply List.take_of_length_le
        simp only [List.length_append, List.length_drop, List.length_cons,
          List.length_nil]
        omega
      rw [h1, h2, List.nil_append, hset, hBtlnil]
      have hAeq : A = hs.drop (hs.length + 1 - w.size) := by
        rw [hA]
        congr 1
        omega
      rw [hAeq]

theorem ringInv_pushAll {N : ℕ} (hN : 1 ≤ N) (hs : List ℕ) :
    ringInv (pushAll (mk0 N) hs) hs := by
  induction hs using List.reverseRecOn with
  | nil => exact ringInv_mk0 hN
  | append_singleton hs v ih =>
      rw [pushAll_append]
      have hsize : (pushAll (mk0 N) hs).size = N := by
        clear ih
        induction hs using List.reverseRecOn with
        | nil => rfl
        | append_singleton hs v ih => rw [pushAll_append]; exact ih
      exact ringInv_push (by omega) ih v

theorem size_push (w : RollingWindow) (v : ℕ) : (w.push v).size = w.size := rfl

theorem size_pushAll (w : RollingWindow) (hs : List ℕ) :
    (pushAll w hs).size = w.size := by
  induction hs generalizing w with
  | nil => rfl
  | cons a t ih => exact (ih (w.push a)).trans rfl

theorem count_of_ringInv {w : RollingWindow} {hs : List ℕ} (h : ringInv w hs) :
    w.count = min w.size hs.length := by
  obtain ⟨hlen, hidx, hfill, hbuf⟩ := h
  rcases Bool.eq_false_or_eq_true w.filled with h0 | h0
  · have hge := hfill.mp h0
    rw [count, h0, if_pos rfl]
    omega
  · have hlt : hs.length < w.size := by
      by_contra hc
      have h1 := hfill.mpr (by omega)
      rw [h0] at h1
      cases h1
    rw [count, h0, if_neg (by simp), hidx, Nat.mod_eq_of_lt hlt]
    omega

theorem fails_of_ringInv {w : RollingWindow} {hs : List ℕ} (hN : 1 ≤ w.size)
    (h : ringInv w hs) :
    w.fails = (hs.drop (hs.length - min w.size hs.length)).sum := by
  have hcount := count_of_ringInv h
  obtain ⟨hlen, hidx, hfill, hbuf⟩ := h
  rcases Nat.lt_or_ge hs.length w.size with hlt | hge
  · rw [if_pos hlt] at hbuf
    have hmin : min w.size hs.length = hs.length := by omega
    rw [fails, hcount, hmin, Nat.sub_self, List.drop_zero, hbuf]
    rw [List.take_append_of_le_length (le_refl _), List.take_length]
  · rw [if_neg (by omega)] at hbuf
    have hidxlt : w.idx < w.size := by rw [hidx]; exact Nat.mod_lt _ (by omega)
    have hmin : min w.size hs.length = w.size := by omega
    rw [fails, hcount, hmin, List.take_of_length_le (by omega), hbuf,
      List.sum_append]
    have e3 : hs.length - w.size + (w.size - w.idx) = hs.length - w.idx := by omega
    have key : (hs.drop (hs.length - w.size)).sum =
        ((hs.drop (hs.length - w.size)).take (w.size - w.idx)).sum +
          (hs.drop (hs.length - w.idx)).sum := by
      conv_lhs =>
        rw [← List.take_append_drop (w.size - w.idx) (hs.drop (hs.length - w.size))]
      rw [List.sum_append, List.drop_drop, e3]
    rw [key, Nat.add_comm]

theorem sum_le_length_of_le_one (l : List ℕ) (hl : ∀ x ∈ l, x ≤ 1) :
    l.sum ≤ l.length := by
  induction l with
  | nil => simp
  | cons a t ih =>
      simp only [List.sum_cons, List.length_cons]
      have ha := hl a (by simp)
      have ht := ih (fun x hx => hl x (by simp [hx]))
      omega

end RollingWindow

/-- C9: for every sequence of pushes into a `RollingWindow` of capacity
`N ≥ 1` (freshly constructed, or equivalently after `reset`):
`count = min N (number of pushes)`, `failures` is the sum of the last
`min N (number of pushes)` pushed outcomes, `failures ≤ count`,
`failure_rate = failures / count` when `count > 0` and `0` when `count = 0`,
hence `failure_rate ∈ [0, 1]`. -/
theorem rollingWindow_spec (N : ℕ) (hs : List ℕ) (hN : 1 ≤ N)
    (hv : ∀ v ∈ hs, v ≤ 1) :
    (RollingWindow.pushAll (RollingWindow.mk0 N) hs).count = min N hs.length ∧
    (RollingWindow.pushAll (RollingWindow.mk0 N) hs).fails =
      (hs.drop (hs.length - min N hs.length)).sum ∧
    (RollingWindow.pushAll (RollingWindow.mk0 N) hs).fails ≤
      (RollingWindow.pushAll (RollingWindow.mk0 N) hs).count ∧
    ((RollingWindow.pushAll (RollingWindow.mk0 N) hs).count ≠ 0 →
      (RollingWindow.pushAll (RollingWindow.mk0 N) hs).failureRate =
        ((RollingWindow.pushAll (RollingWindow.mk0 N) hs).fails : ℚ) /
          ((RollingWindow.pushAll (RollingWindow.mk0 N) hs).count : ℚ)) ∧
    ((RollingWindow.pushAll (RollingWindow.mk0 N) hs).count = 0 →
      (RollingWindow.pushAll (RollingWindow.mk0 N) hs).failureRate = 0) ∧
    0 ≤ (RollingWindow.pushAll (RollingWindow.mk0 N) hs).failureRate ∧
    (RollingWindow.pushAll (RollingWindow.mk0 N) hs).failureRate ≤ 1 ∧
    (∀ w' : RollingWindow, w'.size = N → w'.buf.length = N →
      RollingWindow.pushAll w'.reset hs =
        RollingWindow.pushAll (RollingWindow.mk0 N) hs) := by
  have hinv := RollingWindow.ringInv_pushAll hN hs
  set w := RollingWindow.pushAll (RollingWindow.mk0 N) hs with hw
  have hsize : w.size = N := by
    rw [hw, RollingWindow.size_pushAll]
    rfl
  have hc := RollingWindow.count_of_ringInv hinv
  rw [hsize] at hc
  have hf := RollingWindow.fails_of_ringInv (by omega) hinv
  rw [hsize] at hf
  have hle : w.fails ≤ w.count := by
    rw [hf, hc]
    have hlen' : (hs.drop (hs.length - min N hs.length)).length = min N hs.length := by
      rw [List.length_drop]
      omega
    calc (hs.drop (hs.length - min N hs.length)).sum
        ≤ (hs.drop (hs.length - min N hs.length)).length :=
          RollingWindow.sum_le_length_of_le_one _
            (fun x hx => hv x (List.mem_of_mem_drop hx))
      _ = min N hs.length := hlen'
  refine ⟨hc, hf, hle, ?_, ?_, ?_, ?_, ?_⟩
  · intro h0
    rw [RollingWindow.failureRate, if_neg h0]
  · intro h0
    rw [RollingWindow.failureRate, if_pos h0]
  · rw [RollingWindow.failureRate]
    split
    · exact le_refl 0
    · positivity
  · rw [RollingWindow.failureRate]
    split
    · norm_num
    · rename_i h0
      apply div_le_one_of_le₀
      · exact_mod_cast hle
      · positivity
  · intro w' h1 h2
    have hr : w'.reset = RollingWindow.mk0 N := by
      rw [RollingWindow.reset, RollingWindow.mk0, h1, h2]
    rw [hr]

/-- Witness for C9 at capacity 3 with the push sequence 1,1,0,1 (which
wraps), plus the empty sequence for the `count = 0` case and a used
window for the reset case. -/
theorem rollingWindow_spec_witness :
    (RollingWindow.pushAll (RollingWindow.mk0 3) [1, 1, 0, 1]).count =
      min 3 ([1, 1, 0, 1] : List ℕ).length ∧
    (RollingWindow.pushAll (RollingWindow.mk0 3) [1, 1, 0, 1]).fails =
      (([1, 1, 0, 1] : List ℕ).drop
        (([1, 1, 0, 1] : List ℕ).length - min 3 ([1, 1, 0, 1] : List ℕ).length)).sum ∧
    (RollingWindow.pushAll (RollingWindow.mk0 3) [1, 1, 0, 1]).fails ≤
      (RollingWindow.pushAll (RollingWindow.mk0 3) [1, 1, 0, 1]).count ∧
    (RollingWindow.pushAll (RollingWindow.mk0 3) [1, 1, 0, 1]).failureRate =
      ((RollingWindow.pushAll (RollingWindow.mk0 3) [1, 1, 0, 1]).fails : ℚ) /
        ((RollingWindow.pushAll (RollingWindow.mk0 3) [1, 1, 0, 1]).count : ℚ) ∧
    (RollingWindow.pushAll (RollingWindow.mk0 3) ([] : List ℕ)).failureRate = 0 ∧
    0 ≤ (RollingWindow.pushAll (RollingWindow.mk0 3) [1, 1, 0, 1]).failureRate ∧
    (RollingWindow.pushAll (RollingWindow.mk0 3) [1, 1, 0, 1]).failureRate ≤ 1 ∧
    RollingWindow.pushAll (RollingWindow.reset ⟨3, [1, 0, 1], 2, true⟩) [1, 1, 0, 1] =
      RollingWindow.pushAll (RollingWindow.mk0 3) [1, 1, 0, 1] := by
  have H := rollingWindow_spec 3 [1, 1, 0, 1] (by decide) (by decide)
  have H0 := rollingWindow_spec 3 ([] : List ℕ) (by decide) (by decide)
  exact ⟨H.1, H.2.1, H.2.2.1, H.2.2.2.1 (by decide), H0.2.2.2.2.1 rfl,
    H.2.2.2.2.2.1, H.2.2.2.2.2.2.1,
    H.2.2.2.2.2.2.2 ⟨3, [1, 0, 1], 2, true⟩ rfl rfl⟩

/-! ## Circuit breaker (`src/breaker.ts`) -/

/-- `BreakerState` union type. -/
inductive BreakerState
  | CLOSED
  | OPEN
  | HALF_OPEN
  deriving Repr, DecidableEq

/-- `BreakerOptions`: timestamps and the cooldown are milliseconds (ℤ),
the failure threshold is a rational in `[0, 1]`. -/
structure BreakerOptions where
  windowSize : ℕ
  minRequests : ℕ
  failureThreshold : ℚ
  cooldownMs : ℤ
  halfOpenProbeCount : ℕ
  deriving Repr, DecidableEq

/-- `BreakerBucket`: per-key state record. -/
structure BreakerBucket where
  state : BreakerState
  openedAtMs : Option ℤ
  halfOpenInFlight : ℕ
  window : RollingWindow
  halfOpenSuccesses : ℕ
  halfOpenFailures : ℕ
  deriving Repr, DecidableEq

/-- The lazily created initial bucket for a key. -/
def freshBucket (opts : BreakerOptions) : BreakerBucket :=
  { state := .CLOSED
    openedAtMs := none
    halfOpenInFlight := 0
    window := RollingWindow.mk0 opts.windowSize
    halfOpenSuccesses := 0
    halfOpenFailures := 0 }

/-- `BreakerDecision` returned by `allow`. -/
structure BreakerDecision where
  allowed : Bool
  state : BreakerState
  retryAfterMs : Option ℤ
  deriving Repr, DecidableEq

/-- The `{changed, from?, to?}` record returned by `onSuccess`/`onFailure`. -/
structure ChangeResult where
  changed : Bool
  fromS : Option BreakerState
  toS : Option BreakerState
  deriving Repr, DecidableEq

/-- `toOpen`: enter OPEN at `nowMs`; keep the rolling window intact, reset
the three half-open counters. -/
def toOpen (b : BreakerBucket) (nowMs : ℤ) : BreakerBucket :=
  { b with state := .OPEN
           openedAtMs := some nowMs
           halfOpenInFlight := 0
           halfOpenSuccesses := 0
           halfOpenFailures := 0 }

/-- `toHalfOpen`: enter HALF_OPEN; clear `openedAtMs`, reset the three
half-open counters. -/
def toHalfOpen (b : BreakerBucket) : BreakerBucket :=
  { b with state := .HALF_OPEN
           openedAtMs := none
           halfOpenInFlight := 0
           halfOpenSuccesses := 0
           halfOpenFailures := 0 }

/-- `toClosed`: enter CLOSED; reset the window and the three half-open
counters. -/
def toClosed (b : BreakerBucket) : BreakerBucket :=
  { b with state := .CLOSED
           openedAtMs := none
           window := b.window.reset
           halfOpenInFlight := 0
           halfOpenSuccesses := 0
           halfOpenFailures := 0 }

/-- The HALF_OPEN / CLOSED tail of `allow` (the code after the OPEN block
falls through to this). -/
def allowTail (opts : BreakerOptions) (b : BreakerBucket) :
    BreakerDecision × BreakerBucket :=
  match b.state with
  | .HALF_OPEN =>
      if opts.halfOpenProbeCount ≤ b.halfOpenInFlight then
        (⟨false, .HALF_OPEN, some 0⟩, b)
      else
        (⟨true, .HALF_OPEN, none⟩,
          { b with halfOpenInFlight := b.halfOpenInFlight + 1 })
  | _ => (⟨true, .CLOSED, none⟩, b)

/-- `allow(key, nowMs)` on one bucket: OPEN blocks until the cooldown has
elapsed, then transitions to HALF_OPEN and falls through to bounded probe
admission; CLOSED always allows. -/
def allowB (opts : BreakerOptions) (b : BreakerBucket) (nowMs : ℤ) :
    BreakerDecision × BreakerBucket :=
  match b.state with
  | .OPEN =>
      let elapsed := nowMs - (b.openedAtMs.getD nowMs)
      let remaining := opts.cooldownMs - elapsed
      if 0 < remaining then (⟨false, .OPEN, some remaining⟩, b)
      else allowTail opts (toHalfOpen b)
  | _ => allowTail opts b

/-- `onSuccess(key)` on one bucket. -/
def onSuccessB (opts : BreakerOptions) (b : BreakerBucket) :
    ChangeResult × BreakerBucket :=
  match b.state with
  | .HALF_OPEN =>
      let b1 : BreakerBucket :=
        { b with halfOpenInFlight := b.halfOpenInFlight - 1
                 halfOpenSuccesses := b.halfOpenSuccesses + 1 }
      if opts.halfOpenProbeCount ≤ b1.halfOpenSuccesses then
        (⟨true, some .HALF_OPEN, some .CLOSED⟩, toClosed b1)
      else
        (⟨false, none, none⟩, b1)
  | .CLOSED => (⟨false, none, none⟩, { b with window := b.window.push 0 })
  | .OPEN => (⟨false, none, none⟩, b)

/-- `onFailure(key, nowMs)` on one bucket. -/
def onFailureB (opts : BreakerOptions) (b : BreakerBucket) (nowMs : ℤ) :
    ChangeResult × BreakerBucket :=
  match b.state with
  | .HALF_OPEN =>
      let b1 : BreakerBucket :=
        { b with halfOpenInFlight := b.halfOpenInFlight - 1
                 halfOpenFailures := b.halfOpenFailures + 1 }
      (⟨true, some .HALF_OPEN, some .OPEN⟩, toOpen b1 nowMs)
  | .CLOSED =>
      let b1 : BreakerBucket := { b with window := b.window.push 1 }
      if opts.minRequests ≤ b1.window.count ∧
          opts.failureThreshold ≤ b1.window.failureRate then
        (⟨true, some .CLOSED, some .OPEN⟩, toOpen b1 nowMs)
      else
        (⟨false, none, none⟩, b1)
  | .OPEN => (⟨false, none, none⟩, b)

/-- The breaker: validated options plus the per-key bucket map (modelled
as an association list indexed by the key string). -/
structure CircuitBreaker where
  opts : BreakerOptions
  buckets : List (String × BreakerBucket)
  deriving Repr, DecidableEq

namespace CircuitBreaker

/-- `new CircuitBreaker(opts)`: empty bucket map. -/
def init (opts : BreakerOptions) : CircuitBreaker :=
  ⟨opts, []⟩

/-- Update (or append) a key's bucket in the map. -/
def putBucket : List (String × BreakerBucket) → String → BreakerBucket →
    List (String × BreakerBucket)
  | [], k, b => [(k, b)]
  | (k', b') :: rest, k, b =>
      if k' = k then (k, b) :: rest else (k', b') :: putBucket rest k b

/-- Look a key's bucket up in the map. -/
def findBucket : List (String × BreakerBucket) → String → Option BreakerBucket
  | [], _ => none
  | (k', b') :: rest, k => if k' = k then some b' else findBucket rest k

/-- `bucket(key)`: the key's bucket, lazily the fresh CLOSED bucket. -/
def bucket (cb : CircuitBreaker) (key : String) : BreakerBucket :=
  (findBucket cb.buckets key).getD (freshBucket cb.opts)

/-- `allow(key, nowMs)` on the keyed breaker. -/
def allow (cb : CircuitBreaker) (key : String) (nowMs : ℤ) :
    BreakerDecision × CircuitBreaker :=
  let r := allowB cb.opts (cb.bucket key) nowMs
  (r.1, { cb with buckets := putBucket cb.buckets key r.2 })

/-- `onSuccess(key)` on the keyed breaker. -/
def onSuccess (cb : CircuitBreaker) (key : String) :
    ChangeResult × CircuitBreaker :=
  let r := onSuccessB cb.opts (cb.bucket key)
  (r.1, { cb with buckets := putBucket cb.buckets key r.2 })

/-- `onFailure(key, nowMs)` on the keyed breaker. -/
def onFailure (cb : CircuitBreaker) (key : String) (nowMs : ℤ) :
    ChangeResult × CircuitBreaker :=
  let r := onFailureB cb.opts (cb.bucket key) nowMs
  (r.1, { cb with buckets := putBucket cb.buckets key r.2 })

/-- `state(key)`. -/
def stateOf (cb : CircuitBreaker) (key : String) : BreakerState :=
  (cb.bucket key).state

end CircuitBreaker

/-- One breaker API call, for reasoning about arbitrary operation
sequences. -/
inductive BreakerOp
  | allow (key : String) (nowMs : ℤ)
  | success (key : String)
  | failure (key : String) (nowMs : ℤ)

/-- Apply one breaker API call, discarding the returned value. -/
def breakerStep (cb : CircuitBreaker) : BreakerOp → CircuitBreaker
  | .allow key nowMs => (cb.allow key nowMs).2
  | .success key => (cb.onSuccess key).2
  | .failure key nowMs => (cb.onFailure key nowMs).2

/-- Run a sequence of breaker API calls. -/
def breakerRun (cb : CircuitBreaker) (ops : List BreakerOp) : CircuitBreaker :=
  ops.foldl breakerStep cb

/-! ### Bucket-map lemmas -/

theorem findBucket_putBucket_same (l : List (String × BreakerBucket))
    (k : String) (b : BreakerBucket) :
    CircuitBreaker.findBucket (CircuitBreaker.putBucket l k b) k = some b := by
  induction l with
  | nil => simp [CircuitBreaker.putBucket, CircuitBreaker.findBucket]
  | cons p rest ih =>
      obtain ⟨k', b'⟩ := p
      by_cases hk : k' = k
      · simp [CircuitBreaker.putBucket, CircuitBreaker.findBucket, hk]
      · simp [CircuitBreaker.putBucket, CircuitBreaker.findBucket, hk, ih]

theorem findBucket_putBucket_other (l : List (String × BreakerBucket))
    {k k2 : String} (b : BreakerBucket) (hk : k2 ≠ k) :
    CircuitBreaker.findBucket (CircuitBreaker.putBucket l k b) k2 =
      CircuitBreaker.findBucket l k2 := by
  induction l with
  | nil => simp [CircuitBreaker.putBucket, CircuitBreaker.findBucket, Ne.symm hk]
  | cons p rest ih =>
      obtain ⟨k', b'⟩ := p
      by_cases h1 : k' = k
      · subst h1
        simp [CircuitBreaker.putBucket, CircuitBreaker.findBucket,
          Ne.symm hk, hk]
      · by_cases h2 : k' = k2
        · simp [CircuitBreaker.putBucket, CircuitBreaker.findBucket, h1, h2, hk]
        · simp [CircuitBreaker.putBucket, CircuitBreaker.findBucket, h1, h2, ih]

theorem opts_breakerStep (cb : CircuitBreaker) (op : BreakerOp) :
    (breakerStep cb op).opts = cb.opts := by
  cases op <;> rfl

theorem opts_breakerRun (cb : CircuitBreaker) (ops : List BreakerOp) :
    (breakerRun cb ops).opts = cb.opts := by
  induction ops generalizing cb with
  | nil => rfl
  | cons op rest ih =>
      show (breakerRun (breakerStep cb op) rest).opts = cb.opts
      rw [ih, opts_breakerStep]

/-! ### Half-open in-flight bound (per bucket, then per run) -/

theorem hio_allowTail_le {opts : BreakerOptions} {b : BreakerBucket}
    (h : b.halfOpenInFlight ≤ opts.halfOpenProbeCount) :
    (allowTail opts b).2.halfOpenInFlight ≤ opts.halfOpenProbeCount := by
  rcases hbs : b.state
  · simpa [allowTail, hbs] using h
  · simpa [allowTail, hbs] using h
  · simp only [allowTail, hbs]
    split
    · simpa using h
    · rename_i hlt
      simp at hlt ⊢
      omega

theorem hio_allowB_le {opts : BreakerOptions} {b : BreakerBucket} {nowMs : ℤ}
    (h : b.halfOpenInFlight ≤ opts.halfOpenProbeCount) :
    (allowB opts b nowMs).2.halfOpenInFlight ≤ opts.halfOpenProbeCount := by
  rcases hbs : b.state
  · simpa [allowB, hbs] using hio_allowTail_le h
  · simp only [allowB, hbs]
    split
    · simpa using h
    · exact hio_allowTail_le (by simp [toHalfOpen])
  · simpa [allowB, hbs] using hio_allowTail_le h

theorem hio_onSuccessB_le {opts : BreakerOptions} {b : BreakerBucket}
    (h : b.halfOpenInFlight ≤ opts.halfOpenProbeCount) :
    (onSuccessB opts b).2.halfOpenInFlight ≤ opts.halfOpenProbeCount := by
  rcases hbs : b.state
  · simpa [onSuccessB, hbs] using h
  · simpa [onSuccessB, hbs] using h
  · simp only [onSuccessB, hbs]
    split
    · simp [toClosed]
    · simp
      omega

theorem hio_onFailureB_le {opts : BreakerOptions} {b : BreakerBucket} {nowMs : ℤ}
    (h : b.halfOpenInFlight ≤ opts.halfOpenProbeCount) :
    (onFailureB opts b nowMs).2.halfOpenInFlight ≤ opts.halfOpenProbeCount := by
  rcases hbs : b.state
  · simp only [onFailureB, hbs]
    split
    · simp [toOpen]
    · simpa using h
  · simpa [onFailureB, hbs] using h
  · simp [onFailureB, hbs, toOpen]

theorem allow_snd (cb : CircuitBreaker) (key : String) (nowMs : ℤ) :
    (cb.allow key nowMs).2 =
      { cb with buckets := CircuitBreaker.putBucket cb.buckets key (allowB cb.opts (cb.bucket key) nowMs).2 } :=
  rfl

theorem onSuccess_snd (cb : CircuitBreaker) (key : String) :
    (cb.onSuccess key).2 =
      { cb with buckets := CircuitBreaker.putBucket cb.buckets key (onSuccessB cb.opts (cb.bucket key)).2 } :=
  rfl

theorem onFailure_snd (cb : CircuitBreaker) (key : String) (nowMs : ℤ) :
    (cb.onFailure key nowMs).2 =
      { cb with buckets := CircuitBreaker.putBucket cb.buckets key (onFailureB cb.opts (cb.bucket key) nowMs).2 } :=
  rfl

theorem bucket_put (cb : CircuitBreaker) (key k2 : String) (b : BreakerBucket) :
    CircuitBreaker.bucket { cb with buckets := CircuitBreaker.putBucket cb.buckets key b } k2 =
      if k2 = key then b else cb.bucket k2 := by
  by_cases hk : k2 = key
  · subst hk
    simp [CircuitBreaker.bucket, findBucket_putBucket_same]
  · simp [CircuitBreaker.bucket, findBucket_putBucket_other _ _ hk, hk]

theorem hio_breakerStep_le (cb : CircuitBreaker) (op : BreakerOp)
    (h : ∀ key, (cb.bucket key).halfOpenInFlight ≤ cb.opts.halfOpenProbeCount) :
    ∀ key, ((breakerStep cb op).bucket key).halfOpenInFlight ≤
      cb.opts.halfOpenProbeCount := by
  intro key
  cases op with
  | allow k now =>
      show ((CircuitBreaker.bucket (cb.allow k now).2 key).halfOpenInFlight ≤ _)
      rw [allow_snd, bucket_put]
      split
      · exact hio_allowB_le (h k)
      · exact h key
  | success k =>
      show ((CircuitBreaker.bucket (cb.onSuccess k).2 key).halfOpenInFlight ≤ _)
      rw [onSuccess_snd, bucket_put]
      split
      · exact hio_onSuccessB_le (h k)
      · exact h key
  | failure k now =>
      show ((CircuitBreaker.bucket (cb.onFailure k now).2 key).halfOpenInFlight ≤ _)
      rw [onFailure_snd, bucket_put]
      split
      · exact hio_onFailureB_le (h k)
      · exact h key

theorem hio_breakerRun_le (cb : CircuitBreaker) (ops : List BreakerOp)
    (h : ∀ key, (cb.bucket key).halfOpenInFlight ≤ cb.opts.halfOpenProbeCount) :
    ∀ key, ((breakerRun cb ops).bucket key).halfOpenInFlight ≤
      cb.opts.halfOpenProbeCount := by
  induction ops generalizing cb with
  | nil => exact h
  | cons op rest ih =>
      intro key
      have hstep := hio_breakerStep_le cb op h
      have hopts := opts_breakerStep cb op
      exact (ih (breakerStep cb op) (fun k => by rw [hopts]; exact hstep k) key).trans
        (by rw [hopts])

/-- C6: `allow(key, now)` implements exactly the OPEN / HALF_OPEN / CLOSED
admission algorithm (deny with remaining cooldown, transition to HALF_OPEN
after cooldown and admit the first probe, bounded probe admission, always
allow in CLOSED), and consequently `half_open_in_flight` never exceeds
`half_open_probe_count` for any key over any operation sequence. -/
theorem breaker_allow_spec :
    (∀ (opts : BreakerOptions) (b : BreakerBucket) (t nowMs : ℤ),
      b.state = .OPEN → b.openedAtMs = some t → nowMs - t < opts.cooldownMs →
      allowB opts b nowMs =
        (⟨false, .OPEN, some (opts.cooldownMs - (nowMs - t))⟩, b)) ∧
    (∀ (opts : BreakerOptions) (b : BreakerBucket) (t nowMs : ℤ),
      b.state = .OPEN → b.openedAtMs = some t → opts.cooldownMs ≤ nowMs - t →
      1 ≤ opts.halfOpenProbeCount →
      allowB opts b nowMs =
        (⟨true, .HALF_OPEN, none⟩, { toHalfOpen b with halfOpenInFlight := 1 })) ∧
    (∀ (opts : BreakerOptions) (b : BreakerBucket) (nowMs : ℤ),
      b.state = .HALF_OPEN → opts.halfOpenProbeCount ≤ b.halfOpenInFlight →
      allowB opts b nowMs = (⟨false, .HALF_OPEN, some 0⟩, b)) ∧
    (∀ (opts : BreakerOptions) (b : BreakerBucket) (nowMs : ℤ),
      b.state = .HALF_OPEN → b.halfOpenInFlight < opts.halfOpenProbeCount →
      allowB opts b nowMs =
        (⟨true, .HALF_OPEN, none⟩,
          { b with halfOpenInFlight := b.halfOpenInFlight + 1 })) ∧
    (∀ (opts : BreakerOptions) (b : BreakerBucket) (nowMs : ℤ),
      b.state = .CLOSED → allowB opts b nowMs = (⟨true, .CLOSED, none⟩, b)) ∧
    (∀ (opts : BreakerOptions) (ops : List BreakerOp) (key : String),
      ((breakerRun (CircuitBreaker.init opts) ops).bucket key).halfOpenInFlight ≤
        opts.halfOpenProbeCount) := by
  refine ⟨?_, ?_, ?_, ?_, ?_, ?_⟩
  · intro opts b t nowMs hst hat hlt
    simp only [allowB, hst, hat, Option.getD_some]
    rw [if_pos (by omega)]
  · intro opts b t nowMs hst hat hcd hp
    simp only [allowB, hst, hat, Option.getD_some]
    rw [if_neg (by omega)]
    simp only [allowTail, toHalfOpen]
    rw [if_neg (by omega)]
  · intro opts b nowMs hst hge
    simp only [allowB, hst, allowTail]
    rw [if_pos hge]
  · intro opts b nowMs hst hlt
    simp only [allowB, hst, allowTail]
    rw [if_neg (by omega)]
  · intro opts b nowMs hst
    simp only [allowB, hst, allowTail]
  · intro opts ops key
    have h0 : ∀ k, ((CircuitBreaker.init opts).bucket k).halfOpenInFlight ≤
        (CircuitBreaker.init opts).opts.halfOpenProbeCount := by
      intro k
      simp [CircuitBreaker.init, CircuitBreaker.bucket, CircuitBreaker.findBucket,
        freshBucket]
    exact hio_breakerRun_le _ ops h0 key

/-- Witness for C6 at concrete inputs (config window 5, min 1, threshold 1,
cooldown 100, probes 2; a bucket opened at t = 1000). -/
theorem breaker_allow_spec_witness :
    (allowB ⟨5, 1, 1, 100, 2⟩ ⟨.OPEN, some 1000, 0, RollingWindow.mk0 5, 0, 0⟩ 1050 =
      (⟨false, .OPEN, some ((100 : ℤ) - (1050 - 1000))⟩,
        ⟨.OPEN, some 1000, 0, RollingWindow.mk0 5, 0, 0⟩)) ∧
    (allowB ⟨5, 1, 1, 100, 2⟩ ⟨.OPEN, some 1000, 0, RollingWindow.mk0 5, 0, 0⟩ 1120 =
      (⟨true, .HALF_OPEN, none⟩,
        { toHalfOpen ⟨.OPEN, some 1000, 0, RollingWindow.mk0 5, 0, 0⟩ with
            halfOpenInFlight := 1 })) ∧
    (allowB ⟨5, 1, 1, 100, 2⟩ ⟨.HALF_OPEN, none, 2, RollingWindow.mk0 5, 0, 0⟩ 1130 =
      (⟨false, .HALF_OPEN, some 0⟩,
        ⟨.HALF_OPEN, none, 2, RollingWindow.mk0 5, 0, 0⟩)) ∧
    (allowB ⟨5, 1, 1, 100, 2⟩ ⟨.HALF_OPEN, none, 1, RollingWindow.mk0 5, 0, 0⟩ 1130 =
      (⟨true, .HALF_OPEN, none⟩,
        { (⟨.HALF_OPEN, none, 1, RollingWindow.mk0 5, 0, 0⟩ : BreakerBucket) with
            halfOpenInFlight := 1 + 1 })) ∧
    (allowB ⟨5, 1, 1, 100, 2⟩ ⟨.CLOSED, none, 0, RollingWindow.mk0 5, 0, 0⟩ 0 =
      (⟨true, .CLOSED, none⟩, ⟨.CLOSED, none, 0, RollingWindow.mk0 5, 0, 0⟩)) ∧
    ((breakerRun (CircuitBreaker.init ⟨5, 1, 1, 100, 2⟩)
        [.failure "svc" 1000, .allow "svc" 1120, .allow "svc" 1121]).bucket
          "svc").halfOpenInFlight ≤ 2 :=
  ⟨breaker_allow_spec.1 _ _ 1000 1050 rfl rfl (by norm_num),
   breaker_allow_spec.2.1 _ _ 1000 1120 rfl rfl (by norm_num) (by norm_num),
   breaker_allow_spec.2.2.1 _ _ 1130 rfl (by norm_num),
   breaker_allow_spec.2.2.2.1 _ _ 1130 rfl (by norm_num),
   breaker_allow_spec.2.2.2.2.1 _ _ 0 rfl,
   breaker_allow_spec.2.2.2.2.2 _ _ "svc"⟩

/-- C7: in HALF_OPEN, `on_failure` decrements `half_open_in_flight`
(clamped at 0 by ℕ subtraction), increments `half_open_failures`, and
immediately transitions to OPEN with `opened_at = now`, resetting the
half-open counters and preserving the window; `on_success` decrements
`half_open_in_flight`, increments `half_open_successes`, and transitions
to CLOSED (resetting window and counters) exactly when the incremented
success count reaches `half_open_probe_count`; transitions report
`changed = true` with the from/to states. -/
theorem breaker_halfopen_results_spec :
    (∀ (opts : BreakerOptions) (b : BreakerBucket) (nowMs : ℤ),
      b.state = .HALF_OPEN →
      onFailureB opts b nowMs =
        (⟨true, some .HALF_OPEN, some .OPEN⟩,
          toOpen { b with halfOpenInFlight := b.halfOpenInFlight - 1,
                          halfOpenFailures := b.halfOpenFailures + 1 } nowMs)) ∧
    (∀ (opts : BreakerOptions) (b : BreakerBucket) (nowMs : ℤ),
      b.state = .HALF_OPEN →
      (onFailureB opts b nowMs).2.state = .OPEN ∧
      (onFailureB opts b nowMs).2.openedAtMs = some nowMs ∧
      (onFailureB opts b nowMs).2.window = b.window ∧
      (onFailureB opts b nowMs).2.halfOpenInFlight = 0 ∧
      (onFailureB opts b nowMs).2.halfOpenSuccesses = 0 ∧
      (onFailureB opts b nowMs).2.halfOpenFailures = 0) ∧
    (∀ (opts : BreakerOptions) (b : BreakerBucket),
      b.state = .HALF_OPEN → opts.halfOpenProbeCount ≤ b.halfOpenSuccesses + 1 →
      onSuccessB opts b =
        (⟨true, some .HALF_OPEN, some .CLOSED⟩,
          toClosed { b with halfOpenInFlight := b.halfOpenInFlight - 1,
                            halfOpenSuccesses := b.halfOpenSuccesses + 1 })) ∧
    (∀ (opts : BreakerOptions) (b : BreakerBucket),
      b.state = .HALF_OPEN → b.halfOpenSuccesses + 1 < opts.halfOpenProbeCount →
      onSuccessB opts b =
        (⟨false, none, none⟩,
          { b with halfOpenInFlight := b.halfOpenInFlight - 1,
                   halfOpenSuccesses := b.halfOpenSuccesses + 1 })) := by
  refine ⟨?_, ?_, ?_, ?_⟩
  · intro opts b nowMs hst
    simp only [onFailureB, hst]
  · intro opts b nowMs hst
    simp [onFailureB, hst, toOpen]
  · intro opts b hst hge
    simp only [onSuccessB, hst]
    rw [if_pos hge]
  · intro opts b hst hlt
    simp only [onSuccessB, hst]
    rw [if_neg (by omega)]

/-- Witness for C7 at a concrete HALF_OPEN bucket (probes = 2, one probe
in flight, one success already recorded). -/
theorem breaker_halfopen_results_spec_witness :
    (onFailureB ⟨5, 1, 1, 100, 2⟩ ⟨.HALF_OPEN, none, 1, RollingWindow.mk0 5, 0, 0⟩ 1061 =
      (⟨true, some .HALF_OPEN, some .OPEN⟩,
        toOpen { (⟨.HALF_OPEN, none, 1, RollingWindow.mk0 5, 0, 0⟩ : BreakerBucket) with
                   halfOpenInFlight := 1 - 1, halfOpenFailures := 0 + 1 } 1061)) ∧
    ((onFailureB ⟨5, 1, 1, 100, 2⟩ ⟨.HALF_OPEN, none, 1, RollingWindow.mk0 5, 0, 0⟩ 1061).2.state = .OPEN ∧
     (onFailureB ⟨5, 1, 1, 100, 2⟩ ⟨.HALF_OPEN, none, 1, RollingWindow.mk0 5, 0, 0⟩ 1061).2.openedAtMs = some 1061 ∧
     (onFailureB ⟨5, 1, 1, 100, 2⟩ ⟨.HALF_OPEN, none, 1, RollingWindow.mk0 5, 0, 0⟩ 1061).2.window = (⟨.HALF_OPEN, none, 1, RollingWindow.mk0 5, 0, 0⟩ : BreakerBucket).window ∧
     (onFailureB ⟨5, 1, 1, 100, 2⟩ ⟨.HALF_OPEN, none, 1, RollingWindow.mk0 5, 0, 0⟩ 1061).2.halfOpenInFlight = 0 ∧
     (onFailureB ⟨5, 1, 1, 100, 2⟩ ⟨.HALF_OPEN, none, 1, RollingWindow.mk0 5, 0, 0⟩ 1061).2.halfOpenSuccesses = 0 ∧
     (onFailureB ⟨5, 1, 1, 100, 2⟩ ⟨.HALF_OPEN, none, 1, RollingWindow.mk0 5, 0, 0⟩ 1061).2.halfOpenFailures = 0) ∧
    (onSuccessB ⟨5, 1, 1, 100, 2⟩ ⟨.HALF_OPEN, none, 1, RollingWindow.mk0 5, 1, 0⟩ =
      (⟨true, some .HALF_OPEN, some .CLOSED⟩,
        toClosed { (⟨.HALF_OPEN, none, 1, RollingWindow.mk0 5, 1, 0⟩ : BreakerBucket) with
                     halfOpenInFlight := 1 - 1, halfOpenSuccesses := 1 + 1 })) ∧
    (onSuccessB ⟨5, 1, 1, 100, 2⟩ ⟨.HALF_OPEN, none, 1, RollingWindow.mk0 5, 0, 0⟩ =
      (⟨false, none, none⟩,
        { (⟨.HALF_OPEN, none, 1, RollingWindow.mk0 5, 0, 0⟩ : BreakerBucket) with
            halfOpenInFlight := 1 - 1, halfOpenSuccesses := 0 + 1 })) :=
  ⟨breaker_halfopen_results_spec.1 _ _ 1061 rfl,
   breaker_halfopen_results_spec.2.1 _ _ 1061 rfl,
   breaker_halfopen_results_spec.2.2.1 _ _ rfl (by norm_num),
   breaker_halfopen_results_spec.2.2.2 _ _ rfl (by norm_num)⟩

/-- C8: in CLOSED, `on_failure` pushes 1 into the window and transitions
to OPEN (with `opened_at = now`, half-open counters reset, window
preserved) iff afterwards `count ≥ min_requests` and
`failure_rate ≥ failure_threshold`; with window 10, min 4, threshold 0.5,
the outcome sequence F,S,F,S,F leaves the bucket OPEN after the fifth
outcome. -/
theorem breaker_closed_failure_spec :
    (∀ (opts : BreakerOptions) (b : BreakerBucket) (nowMs : ℤ),
      b.state = .CLOSED →
      ((opts.minRequests ≤ (b.window.push 1).count ∧
          opts.failureThreshold ≤ (b.window.push 1).failureRate) →
        onFailureB opts b nowMs =
          (⟨true, some .CLOSED, some .OPEN⟩,
            toOpen { b with window := b.window.push 1 } nowMs)) ∧
      (¬(opts.minRequests ≤ (b.window.push 1).count ∧
          opts.failureThreshold ≤ (b.window.push 1).failureRate) →
        onFailureB opts b nowMs =
          (⟨false, none, none⟩, { b with window := b.window.push 1 }))) ∧
    (breakerRun (CircuitBreaker.init ⟨10, 4, 1/2, 1000, 2⟩)
        [.failure "svc" 0, .success "svc", .failure "svc" 0, .success "svc",
         .failure "svc" 0]).stateOf "svc" = .OPEN := by
  constructor
  · intro opts b nowMs hst
    constructor
    · intro hcond
      simp only [onFailureB, hst]
      rw [if_pos hcond]
    · intro hcond
      simp only [onFailureB, hst]
      rw [if_neg hcond]
  · norm_num [breakerRun, breakerStep, CircuitBreaker.init, CircuitBreaker.stateOf,
      CircuitBreaker.bucket, CircuitBreaker.findBucket, CircuitBreaker.putBucket,
      CircuitBreaker.allow, CircuitBreaker.onSuccess, CircuitBreaker.onFailure,
      allowB, allowTail, onSuccessB, onFailureB, freshBucket, toOpen, toHalfOpen,
      toClosed, RollingWindow.mk0, RollingWindow.push, RollingWindow.count,
      RollingWindow.fails, RollingWindow.failureRate, RollingWindow.reset,
      List.foldl]

/-- Witness for C8: a CLOSED bucket (window 10, min 1, threshold 1/2)
whose window already holds one failure opens on the next failure. -/
theorem breaker_closed_failure_spec_witness :
    ((1 : ℕ) ≤ ((RollingWindow.pushAll (RollingWindow.mk0 10) [1]).push 1).count ∧
      (1/2 : ℚ) ≤ ((RollingWindow.pushAll (RollingWindow.mk0 10) [1]).push 1).failureRate) ∧
    onFailureB ⟨10, 1, 1/2, 1000, 2⟩
        ⟨.CLOSED, none, 0, RollingWindow.pushAll (RollingWindow.mk0 10) [1], 0, 0⟩ 7 =
      (⟨true, some .CLOSED, some .OPEN⟩,
        toOpen { (⟨.CLOSED, none, 0, RollingWindow.pushAll (RollingWindow.mk0 10) [1], 0, 0⟩ : BreakerBucket) with
                   window := (RollingWindow.pushAll (RollingWindow.mk0 10) [1]).push 1 } 7) := by
  have hcond : (1 : ℕ) ≤ ((RollingWindow.pushAll (RollingWindow.mk0 10) [1]).push 1).count ∧
      (1/2 : ℚ) ≤ ((RollingWindow.pushAll (RollingWindow.mk0 10) [1]).push 1).failureRate := by
    constructor
    · norm_num [RollingWindow.pushAll, RollingWindow.push, RollingWindow.mk0,
        RollingWindow.count, List.foldl]
    · norm_num [RollingWindow.pushAll, RollingWindow.push, RollingWindow.mk0,
        RollingWindow.count, RollingWindow.fails, RollingWindow.failureRate,
        List.foldl]
  exact ⟨hcond, (breaker_closed_failure_spec.1 _ _ 7 rfl).1 hcond⟩

/-- C10: in CLOSED, `on_success` pushes a success into the window and never
changes the state — the threshold check runs only inside `on_failure`.
With window 10, min 4, threshold 0.5, the outcomes F,S,F,S reach count 4
and failure rate 1/2 (so the threshold condition holds), yet the bucket is
still CLOSED. -/
theorem breaker_closed_success_spec :
    (∀ (opts : BreakerOptions) (b : BreakerBucket),
      b.state = .CLOSED →
      onSuccessB opts b = (⟨false, none, none⟩, { b with window := b.window.push 0 }) ∧
      (onSuccessB opts b).2.state = .CLOSED ∧
      (onSuccessB opts b).1.changed = false) ∧
    ((breakerRun (CircuitBreaker.init ⟨10, 4, 1/2, 1000, 2⟩)
        [.failure "svc" 0, .success "svc", .failure "svc" 0, .success "svc"]).stateOf
          "svc" = .CLOSED ∧
     ((breakerRun (CircuitBreaker.init ⟨10, 4, 1/2, 1000, 2⟩)
        [.failure "svc" 0, .success "svc", .failure "svc" 0, .success "svc"]).bucket
          "svc").window.count = 4 ∧
     ((breakerRun (CircuitBreaker.init ⟨10, 4, 1/2, 1000, 2⟩)
        [.failure "svc" 0, .success "svc", .failure "svc" 0, .success "svc"]).bucket
          "svc").window.failureRate = 1/2 ∧
     (4 : ℕ) ≤ ((breakerRun (CircuitBreaker.init ⟨10, 4, 1/2, 1000, 2⟩)
        [.failure "svc" 0, .success "svc", .failure "svc" 0, .success "svc"]).bucket
          "svc").window.count ∧
     (1/2 : ℚ) ≤ ((breakerRun (CircuitBreaker.init ⟨10, 4, 1/2, 1000, 2⟩)
        [.failure "svc" 0, .success "svc", .failure "svc" 0, .success "svc"]).bucket
          "svc").window.failureRate) := by
  constructor
  · intro opts b hst
    refine ⟨by simp only [onSuccessB, hst], ?_, ?_⟩
    · simp [onSuccessB, hst]
    · simp [onSuccessB, hst]
  · refine ⟨?_, ?_, ?_, ?_, ?_⟩ <;>
    norm_num [breakerRun, breakerStep, CircuitBreaker.init, CircuitBreaker.stateOf,
      CircuitBreaker.bucket, CircuitBreaker.findBucket, CircuitBreaker.putBucket,
      CircuitBreaker.allow, CircuitBreaker.onSuccess, CircuitBreaker.onFailure,
      allowB, allowTail, onSuccessB, onFailureB, freshBucket, toOpen, toHalfOpen,
      toClosed, RollingWindow.mk0, RollingWindow.push, RollingWindow.count,
      RollingWindow.fails, RollingWindow.failureRate, RollingWindow.reset,
      List.foldl]

/-- Witness for C10's universally quantified part at a concrete CLOSED
bucket. -/
theorem breaker_closed_success_spec_witness :
    onSuccessB ⟨10, 4, 1/2, 1000, 2⟩ ⟨.CLOSED, none, 0, RollingWindow.mk0 10, 0, 0⟩ =
      (⟨false, none, none⟩,
        { (⟨.CLOSED, none, 0, RollingWindow.mk0 10, 0, 0⟩ : BreakerBucket) with
            window := (RollingWindow.mk0 10).push 0 }) ∧
    (onSuccessB ⟨10, 4, 1/2, 1000, 2⟩ ⟨.CLOSED, none, 0, RollingWindow.mk0 10, 0, 0⟩).2.state = .CLOSED ∧
    (onSuccessB ⟨10, 4, 1/2, 1000, 2⟩ ⟨.CLOSED, none, 0, RollingWindow.mk0 10, 0, 0⟩).1.changed = false :=
  breaker_closed_success_spec.1 _ _ rfl

/-! ## Concurrency limiter (`src/limiter.ts`) -/

/-- Limiter configuration (validated: `maxInFlight > 0`, `maxQueue ≥ 0`,
`enqueueTimeoutMs > 0`). -/
structure LimiterConfig where
  maxInFlight : ℕ
  maxQueue : ℕ
  enqueueTimeoutMs : ℤ
  deriving Repr, DecidableEq

/-- A queued `Waiter`: identified by its completion handle (modelled by a
unique id) and holding its armed expiration timer's duration. -/
structure Waiter where
  id : ℕ
  timerMs : ℤ
  deriving Repr, DecidableEq

/-- Limiter state: the in-flight permit count and the FIFO wait queue
(`nextId` generates fresh completion-handle identities). -/
structure LimiterState where
  inFlight : ℕ
  queue : List Waiter
  nextId : ℕ
  deriving Repr, DecidableEq

/-- `new ConcurrencyLimiter(...)`: no permits held, empty queue. -/
def initLimiter : LimiterState := ⟨0, [], 0⟩

/-- How an `acquire()` call returns control synchronously: resolved ok
(fast path), enqueued as a waiter, or rejected with `QueueFullError`. -/
inductive AcquireRes
  | ok
  | enqueued (id : ℕ)
  | queueFullErr (maxQueue : ℕ)
  deriving Repr, DecidableEq

/-- `acquire()`: fast path below the cap; `QueueFullError` when the queue
is disabled or full; otherwise enqueue a waiter with a timer armed for
`enqueueTimeoutMs`. -/
def acquire (cfg : LimiterConfig) (s : LimiterState) : AcquireRes × LimiterState :=
  if s.inFlight < cfg.maxInFlight then
    (.ok, { s with inFlight := s.inFlight + 1 })
  else if cfg.maxQueue = 0 ∨ cfg.maxQueue ≤ s.queue.length then
    (.queueFullErr cfg.maxQueue, s)
  else
    (.enqueued s.nextId,
      { s with queue := s.queue ++ [⟨s.nextId, cfg.enqueueTimeoutMs⟩],
               nextId := s.nextId + 1 })

/-- How a `release()` call returns: the fatal `inFlight is already 0`
error, a direct hand-off to the head waiter (its timer cancelled, its
handle resolved ok), or a decrement of `inFlight`. -/
inductive ReleaseRes
  | releaseErr
  | handOff (id : ℕ)
  | decremented
  deriving Repr, DecidableEq

/-- `release()`: throws when no permit is held; hands the permit to the
dequeued head waiter when the queue is non-empty (leaving `inFlight`
unchanged); otherwise decrements `inFlight`. -/
def release (s : LimiterState) : ReleaseRes × LimiterState :=
  if s.inFlight = 0 then
    (.releaseErr, s)
  else
    match s.queue with
    | w :: rest => (.handOff w.id, { s with queue := rest })
    | [] => (.decremented, { s with inFlight := s.inFlight - 1 })

/-- Result of an enqueue-timeout timer firing: the waiter was still queued
and is rejected with `QueueTimeoutError`, or it had already left the
queue. -/
inductive TimeoutRes
  | timedOut (timeoutMs : ℤ)
  | stale
  deriving Repr, DecidableEq

/-- The enqueue-timeout handler: if the waiter (identified by its handle)
is still in the queue, splice it out and reject it with
`QueueTimeoutError(enqueueTimeoutMs)`. -/
def fireTimeout (cfg : LimiterConfig) (s : LimiterState) (id : ℕ) :
    TimeoutRes × LimiterState :=
  if s.queue.any (fun w => w.id == id) then
    (.timedOut cfg.enqueueTimeoutMs,
      { s with queue := s.queue.eraseP (fun w => w.id == id) })
  else
    (.stale, s)

/-- `snapshot()`. -/
def limiterSnapshot (cfg : LimiterConfig) (s : LimiterState) : ℕ × ℕ × ℕ × ℕ :=
  (s.inFlight, s.queue.length, cfg.maxInFlight, cfg.maxQueue)

/-- One limiter interaction: an `acquire`, a `release`, or an
enqueue-timeout timer firing for a given waiter. -/
inductive LimiterOp
  | acq
  | rel
  | fire (id : ℕ)

/-- Apply one limiter interaction, discarding the returned value. -/
def limiterStep (cfg : LimiterConfig) (s : LimiterState) : LimiterOp → LimiterState
  | .acq => (acquire cfg s).2
  | .rel => (release s).2
  | .fire id => (fireTimeout cfg s id).2

/-- Run a sequence of limiter interactions. -/
def limiterRun (cfg : LimiterConfig) (s : LimiterState) (ops : List LimiterOp) :
    LimiterState :=
  ops.foldl (limiterStep cfg) s

/-- The limiter's structural invariant. -/
def LimInv (cfg : LimiterConfig) (s : LimiterState) : Prop :=
  s.inFlight ≤ cfg.maxInFlight ∧ s.queue.length ≤ cfg.maxQueue ∧
    (s.queue ≠ [] → s.inFlight = cfg.maxInFlight)

theorem limInv_step (cfg : LimiterConfig) (s : LimiterState) (op : LimiterOp)
    (h : LimInv cfg s) : LimInv cfg (limiterStep cfg s op) := by
  obtain ⟨h1, h2, h3⟩ := h
  cases op with
  | acq =>
      show LimInv cfg (acquire cfg s).2
      unfold acquire
      split
      · rename_i hfast
        refine ⟨by simpa using hfast, by simpa using h2, ?_⟩
        intro hne
        simp only at hne
        have := h3 hne
        omega
      · split
        · exact ⟨h1, h2, h3⟩
        · rename_i hslow hroom
          push_neg at hroom
          refine ⟨h1, ?_, ?_⟩
          · simp
            omega
          · intro _
            simp only
            omega
  | rel =>
      show LimInv cfg (release s).2
      unfold release
      split
      · exact ⟨h1, h2, h3⟩
      · rename_i hnz
        rcases hq : s.queue with _ | ⟨w, rest⟩
        · simp only [hq]
          refine ⟨by simp; omega, by simp, by simp⟩
        · simp only [hq]
          refine ⟨h1, ?_, ?_⟩
          · simp only
            have := hq ▸ h2
            simp at this
            omega
          · intro hne
            simp only
            exact h3 (by rw [hq]; simp)
  | fire id =>
      show LimInv cfg (fireTimeout cfg s id).2
      unfold fireTimeout
      split
      · refine ⟨h1, ?_, ?_⟩
        · simp only
          exact (List.length_eraseP_le _).trans h2
        · intro hne
          simp only at hne ⊢
          apply h3
          intro hnil
          rw [hnil] at hne
          simp [List.eraseP] at hne
      · exact ⟨h1, h2, h3⟩

/-- C3: for every interleaving of limiter operations (fast-path and
enqueuing acquires, releases with and without hand-off, enqueue-timeout
firings) from the initial state, at every observation point
`in_flight ≤ max_in_flight`, `|queue| ≤ max_queue`, and a non-empty queue
forces `in_flight = max_in_flight`. -/
theorem limiter_invariants_spec (cfg : LimiterConfig) (ops : List LimiterOp) :
    (limiterRun cfg initLimiter ops).inFlight ≤ cfg.maxInFlight ∧
    (limiterRun cfg initLimiter ops).queue.length ≤ cfg.maxQueue ∧
    ((limiterRun cfg initLimiter ops).queue ≠ [] →
      (limiterRun cfg initLimiter ops).inFlight = cfg.maxInFlight) := by
  have h0 : LimInv cfg initLimiter := ⟨by simp [initLimiter], by simp [initLimiter],
    by simp [initLimiter]⟩
  have : ∀ (ops : List LimiterOp) (s : LimiterState), LimInv cfg s →
      LimInv cfg (limiterRun cfg s ops) := by
    intro ops
    induction ops with
    | nil => intro s hs; exact hs
    | cons op rest ih =>
        intro s hs
        exact ih (limiterStep cfg s op) (limInv_step cfg s op hs)
  exact this ops initLimiter h0

/-- Witness for C3 with cap 1 and queue bound 1, after two acquires (the
second of which enqueues, so the non-empty-queue conjunct fires). -/
theorem limiter_invariants_spec_witness :
    (limiterRun ⟨1, 1, 50⟩ initLimiter [.acq, .acq]).inFlight ≤ 1 ∧
    (limiterRun ⟨1, 1, 50⟩ initLimiter [.acq, .acq]).queue.length ≤ 1 ∧
    (limiterRun ⟨1, 1, 50⟩ initLimiter [.acq, .acq]).inFlight = 1 :=
  ⟨(limiter_invariants_spec ⟨1, 1, 50⟩ [.acq, .acq]).1,
   (limiter_invariants_spec ⟨1, 1, 50⟩ [.acq, .acq]).2.1,
   (limiter_invariants_spec ⟨1, 1, 50⟩ [.acq, .acq]).2.2 (by decide)⟩

/-- C4: `release()` fails with a hard error and changes no state when
`in_flight = 0`; otherwise with a non-empty queue it dequeues exactly the
head waiter (cancelling its timer and resolving it ok) and leaves
`in_flight` unchanged; otherwise it decrements `in_flight`. Consequently
two consecutive releases deliver the permit to waiters A then B in
enqueue order (strict FIFO). -/
theorem limiter_release_spec :
    (∀ s : LimiterState, s.inFlight = 0 → release s = (.releaseErr, s)) ∧
    (∀ (s : LimiterState) (w : Waiter) (rest : List Waiter),
      s.inFlight ≠ 0 → s.queue = w :: rest →
      release s = (.handOff w.id, { s with queue := rest })) ∧
    (∀ s : LimiterState, s.inFlight ≠ 0 → s.queue = [] →
      release s = (.decremented, { s with inFlight := s.inFlight - 1 })) ∧
    (∀ (s : LimiterState) (a b : Waiter) (rest : List Waiter),
      s.inFlight ≠ 0 → s.queue = a :: b :: rest →
      (release s).1 = .handOff a.id ∧
      (release s).2.inFlight = s.inFlight ∧
      (release (release s).2).1 = .handOff b.id) := by
  refine ⟨?_, ?_, ?_, ?_⟩
  · intro s h0
    unfold release
    rw [if_pos h0]
  · intro s w rest hnz hq
    unfold release
    rw [if_neg hnz, hq]
  · intro s hnz hq
    unfold release
    rw [if_neg hnz, hq]
  · intro s a b rest hnz hq
    have h1 : release s = (.handOff a.id, { s with queue := b :: rest }) := by
      unfold release
      rw [if_neg hnz, hq]
    have h2 : release { s with queue := b :: rest } =
        (.handOff b.id, { s with queue := rest }) := by
      unfold release
      rw [if_neg hnz]
    rw [h1, h2]
    exact ⟨rfl, rfl, rfl⟩

/-- Witness for C4 at concrete limiter states (cap 1, waiters 7 then 8). -/
theorem limiter_release_spec_witness :
    release ⟨0, [], 0⟩ = (.releaseErr, ⟨0, [], 0⟩) ∧
    release ⟨1, [⟨7, 50⟩, ⟨8, 50⟩], 9⟩ =
      (.handOff 7, { (⟨1, [⟨7, 50⟩, ⟨8, 50⟩], 9⟩ : LimiterState) with queue := [⟨8, 50⟩] }) ∧
    release ⟨1, [], 9⟩ = (.decremented, { (⟨1, [], 9⟩ : LimiterState) with inFlight := 1 - 1 }) ∧
    ((release ⟨1, [⟨7, 50⟩, ⟨8, 50⟩], 9⟩).1 = .handOff 7 ∧
     (release ⟨1, [⟨7, 50⟩, ⟨8, 50⟩], 9⟩).2.inFlight = 1 ∧
     (release (release ⟨1, [⟨7, 50⟩, ⟨8, 50⟩], 9⟩).2).1 = .handOff 8) :=
  ⟨limiter_release_spec.1 _ rfl,
   limiter_release_spec.2.1 _ ⟨7, 50⟩ [⟨8, 50⟩] (by norm_num) rfl,
   limiter_release_spec.2.2.1 _ (by norm_num) rfl,
   limiter_release_spec.2.2.2 _ ⟨7, 50⟩ ⟨8, 50⟩ [] (by norm_num) rfl⟩

/-- C5: `acquire()` follows the three-branch admission algorithm
(synchronous fast path incrementing `in_flight`; synchronous
`QueueFull(max_queue)` with no state change when the queue is disabled or
full; otherwise enqueue a waiter whose timer is armed for
`enqueue_timeout`), and a firing enqueue timeout removes the still-queued
waiter and rejects it with `QueueTimeout(enqueue_timeout)` leaving
`in_flight` unchanged. -/
theorem limiter_acquire_spec :
    (∀ (cfg : LimiterConfig) (s : LimiterState), s.inFlight < cfg.maxInFlight →
      acquire cfg s = (.ok, { s with inFlight := s.inFlight + 1 })) ∧
    (∀ (cfg : LimiterConfig) (s : LimiterState), cfg.maxInFlight ≤ s.inFlight →
      (cfg.maxQueue = 0 ∨ cfg.maxQueue ≤ s.queue.length) →
      acquire cfg s = (.queueFullErr cfg.maxQueue, s)) ∧
    (∀ (cfg : LimiterConfig) (s : LimiterState), cfg.maxInFlight ≤ s.inFlight →
      cfg.maxQueue ≠ 0 → s.queue.length < cfg.maxQueue →
      acquire cfg s =
        (.enqueued s.nextId,
          { s with queue := s.queue ++ [⟨s.nextId, cfg.enqueueTimeoutMs⟩],
                   nextId := s.nextId + 1 })) ∧
    (∀ (cfg : LimiterConfig) (s : LimiterState) (id : ℕ),
      s.queue.any (fun w => w.id == id) = true →
      fireTimeout cfg s id =
        (.timedOut cfg.enqueueTimeoutMs,
          { s with queue := s.queue.eraseP (fun w => w.id == id) }) ∧
      (fireTimeout cfg s id).2.inFlight = s.inFlight) ∧
    (∀ (cfg : LimiterConfig) (s : LimiterState) (id : ℕ),
      s.queue.any (fun w => w.id == id) = false →
      fireTimeout cfg s id = (.stale, s)) := by
  refine ⟨?_, ?_, ?_, ?_, ?_⟩
  · intro cfg s h
    unfold acquire
    rw [if_pos h]
  · intro cfg s h1 h2
    unfold acquire
    rw [if_neg (by omega), if_pos h2]
  · intro cfg s h1 h2 h3
    unfold acquire
    rw [if_neg (by omega), if_neg (by omega)]
  · intro cfg s id h
    have he : fireTimeout cfg s id =
        (.timedOut cfg.enqueueTimeoutMs,
          { s with queue := s.queue.eraseP (fun w => w.id == id) }) := by
      unfold fireTimeout
      rw [if_pos h]
    exact ⟨he, by rw [he]⟩
  · intro cfg s id h
    unfold fireTimeout
    rw [if_neg (by simp [h])]

/-- Witness for C5 at a concrete configuration (cap 1, queue 1, timeout
50 ms). -/
theorem limiter_acquire_spec_witness :
    acquire ⟨1, 1, 50⟩ ⟨0, [], 0⟩ =
      (.ok, { (⟨0, [], 0⟩ : LimiterState) with inFlight := 0 + 1 }) ∧
    acquire ⟨1, 1, 50⟩ ⟨1, [⟨0, 50⟩], 1⟩ = (.queueFullErr 1, ⟨1, [⟨0, 50⟩], 1⟩) ∧
    acquire ⟨1, 1, 50⟩ ⟨1, [], 0⟩ =
      (.enqueued 0,
        { (⟨1, [], 0⟩ : LimiterState) with queue := [] ++ [⟨0, 50⟩], nextId := 0 + 1 }) ∧
    (fireTimeout ⟨1, 1, 50⟩ ⟨1, [⟨0, 50⟩], 1⟩ 0 =
      (.timedOut 50,
        { (⟨1, [⟨0, 50⟩], 1⟩ : LimiterState) with
            queue := [⟨0, 50⟩].eraseP (fun w => w.id == 0) }) ∧
     (fireTimeout ⟨1, 1, 50⟩ ⟨1, [⟨0, 50⟩], 1⟩ 0).2.inFlight = 1) ∧
    fireTimeout ⟨1, 1, 50⟩ ⟨1, [⟨0, 50⟩], 1⟩ 3 = (.stale, ⟨1, [⟨0, 50⟩], 1⟩) :=
  ⟨limiter_acquire_spec.1 ⟨1, 1, 50⟩ _ (by norm_num),
   limiter_acquire_spec.2.1 ⟨1, 1, 50⟩ _ (by norm_num) (by norm_num),
   limiter_acquire_spec.2.2.1 ⟨1, 1, 50⟩ _ (by norm_num) (by norm_num) (by norm_num),
   limiter_acquire_spec.2.2.2.1 ⟨1, 1, 50⟩ _ 0 (by decide),
   limiter_acquire_spec.2.2.2.2 ⟨1, 1, 50⟩ _ 3 (by decide)⟩

/-! ## Request pipeline (`src/client.ts`) -/

/-- Outcome of the awaited `doHttpRequest` transport call: a completed
response with its status, or a thrown failure (`RequestTimeoutError` or a
transport error), named by its error kind. -/
inductive TransportOutcome
  | response (status : ℕ)
  | thrown (errName : String)
  deriving Repr, DecidableEq

/-- Result of the awaited `limiter.acquire()` promise: resolved ok, or
rejected with `QueueFullError` / `QueueTimeoutError`. -/
inductive AcquireOutcome
  | ok
  | queueFull
  | queueTimeout
  deriving Repr, DecidableEq

/-- Events emitted by `ResilientHttpClient.request` (with the payload
fields the spec talks about). -/
inductive PipelineEvent
  | rejected
  | start
  | success (status : ℕ) (durationMs : ℤ)
  | failureEv (durationMs : ℤ) (errName : String)
  | breakerChange (fromS toS : Option BreakerState)
  deriving Repr, DecidableEq

/-- A breaker result call issued by the pipeline. -/
inductive BreakerSignal
  | s_success
  | s_failure
  deriving Repr, DecidableEq

/-- What `request` hands back to the caller. -/
inductive PipelineResult
  | circuitOpen (retryAfterMs : ℤ)
  | queueRejected (acq : AcquireOutcome)
  | completed (status : ℕ)
  | errored (errName : String)
  deriving Repr, DecidableEq

/-- Embedding of `ResilientHttpClient.request` for one logical request.
`acq` stands for the awaited result of `limiter.acquire()` and `outcome`
for the awaited result of `doHttpRequest`; `tStart`/`tEnd` are the clock
samples before and after the transport call (the duration is
`tEnd - tStart`; the result-signal timestamp is `tEnd`). Returns the
caller-visible result, the breaker after the call, the emitted events in
order, and the breaker result signals issued. The `finally` release of the
limiter permit happens on every admitted path and is not observable on the
breaker. Note that the queue-rejection path deliberately issues no breaker
signal — not even a probe-releasing synthetic `on_success`. -/
def requestModel (cb : CircuitBreaker) (key : String) (nowMs : ℤ)
    (acq : AcquireOutcome) (outcome : TransportOutcome) (tStart tEnd : ℤ) :
    PipelineResult × CircuitBreaker × List PipelineEvent × List BreakerSignal :=
  let d := cb.allow key nowMs
  if d.1.allowed = false then
    (.circuitOpen (d.1.retryAfterMs.getD 0), d.2, [.rejected], [])
  else
    match acq with
    | .queueFull => (.queueRejected .queueFull, d.2, [.rejected], [])
    | .queueTimeout => (.queueRejected .queueTimeout, d.2, [.rejected], [])
    | .ok =>
      match outcome with
      | .response status =>
          if 500 ≤ status then
            let r := d.2.onFailure key tEnd
            (.completed status, r.2,
              [.start] ++
                (if r.1.changed then [.breakerChange r.1.fromS r.1.toS] else []) ++
                [.success status (tEnd - tStart)],
              [.s_failure])
          else
            let r := d.2.onSuccess key
            (.completed status, r.2,
              [.start] ++
                (if r.1.changed then [.breakerChange r.1.fromS r.1.toS] else []) ++
                [.success status (tEnd - tStart)],
              [.s_success])
      | .thrown errName =>
          let r := d.2.onFailure key tEnd
          (.errored errName, r.2,
            [.start] ++
              (if r.1.changed then [.breakerChange r.1.fromS r.1.toS] else []) ++
              [.failureEv (tEnd - tStart) errName],
            [.s_failure])

theorem window_allowTail (opts : BreakerOptions) (b : BreakerBucket) :
    (allowTail opts b).2.window = b.window := by
  rcases hbs : b.state
  · simp [allowTail, hbs]
  · simp [allowTail, hbs]
  · simp only [allowTail, hbs]
    split <;> rfl

theorem window_allowB (opts : BreakerOptions) (b : BreakerBucket) (nowMs : ℤ) :
    (allowB opts b nowMs).2.window = b.window := by
  rcases hbs : b.state
  · simpa [allowB, hbs] using window_allowTail opts b
  · simp only [allowB, hbs]
    split
    · rfl
    · rw [window_allowTail]
      rfl
  · simpa [allowB, hbs] using window_allowTail opts b

theorem window_allow (cb : CircuitBreaker) (key : String) (nowMs : ℤ)
    (k : String) :
    ((cb.allow key nowMs).2.bucket k).window = (cb.bucket k).window := by
  rw [allow_snd, bucket_put]
  split
  · rename_i hk
    subst hk
    exact window_allowB cb.opts (cb.bucket k) nowMs
  · rfl

/-- C2: the pipeline classifies every admitted transport outcome —
status ≥ 500 issues exactly one `on_failure` yet emits `request:success`
with that status and the duration; status < 500 issues exactly one
`on_success` and emits `request:success`; a thrown timeout or transport
failure issues exactly one `on_failure`, emits `request:failure`, and
re-surfaces the failure — while every request rejected before admission
(`CircuitOpen`, `QueueFull`, `QueueTimeout`) issues no breaker result
signal and leaves every bucket's outcome window unchanged. -/
theorem pipeline_classification_spec :
    (∀ (cb : CircuitBreaker) (key : String) (nowMs tStart tEnd : ℤ) (status : ℕ),
      (cb.allow key nowMs).1.allowed = true → 500 ≤ status →
      requestModel cb key nowMs .ok (.response status) tStart tEnd =
        (.completed status, ((cb.allow key nowMs).2.onFailure key tEnd).2,
          [.start] ++
            (if ((cb.allow key nowMs).2.onFailure key tEnd).1.changed then
              [.breakerChange ((cb.allow key nowMs).2.onFailure key tEnd).1.fromS
                ((cb.allow key nowMs).2.onFailure key tEnd).1.toS] else []) ++
            [.success status (tEnd - tStart)],
          [.s_failure])) ∧
    (∀ (cb : CircuitBreaker) (key : String) (nowMs tStart tEnd : ℤ) (status : ℕ),
      (cb.allow key nowMs).1.allowed = true → status < 500 →
      requestModel cb key nowMs .ok (.response status) tStart tEnd =
        (.completed status, ((cb.allow key nowMs).2.onSuccess key).2,
          [.start] ++
            (if ((cb.allow key nowMs).2.onSuccess key).1.changed then
              [.breakerChange ((cb.allow key nowMs).2.onSuccess key).1.fromS
                ((cb.allow key nowMs).2.onSuccess key).1.toS] else []) ++
            [.success status (tEnd - tStart)],
          [.s_success])) ∧
    (∀ (cb : CircuitBreaker) (key : String) (nowMs tStart tEnd : ℤ) (errName : String),
      (cb.allow key nowMs).1.allowed = true →
      requestModel cb key nowMs .ok (.thrown errName) tStart tEnd =
        (.errored errName, ((cb.allow key nowMs).2.onFailure key tEnd).2,
          [.start] ++
            (if ((cb.allow key nowMs).2.onFailure key tEnd).1.changed then
              [.breakerChange ((cb.allow key nowMs).2.onFailure key tEnd).1.fromS
                ((cb.allow key nowMs).2.onFailure key tEnd).1.toS] else []) ++
            [.failureEv (tEnd - tStart) errName],
          [.s_failure])) ∧
    (∀ (cb : CircuitBreaker) (key : String) (nowMs tStart tEnd : ℤ)
        (acq : AcquireOutcome) (outcome : TransportOutcome),
      (cb.allow key nowMs).1.allowed = false →
      requestModel cb key nowMs acq outcome tStart tEnd =
        (.circuitOpen ((cb.allow key nowMs).1.retryAfterMs.getD 0),
          (cb.allow key nowMs).2, [.rejected], []) ∧
      (∀ k, ((requestModel cb key nowMs acq outcome tStart tEnd).2.1.bucket k).window =
        (cb.bucket k).window)) ∧
    (∀ (cb : CircuitBreaker) (key : String) (nowMs tStart tEnd : ℤ)
        (acq : AcquireOutcome) (outcome : TransportOutcome),
      (cb.allow key nowMs).1.allowed = true →
      (acq = .queueFull ∨ acq = .queueTimeout) →
      requestModel cb key nowMs acq outcome tStart tEnd =
        (.queueRejected acq, (cb.allow key nowMs).2, [.rejected], []) ∧
      (∀ k, ((requestModel cb key nowMs acq outcome tStart tEnd).2.1.bucket k).window =
        (cb.bucket k).window)) := by
  refine ⟨?_, ?_, ?_, ?_, ?_⟩
  · intro cb key nowMs tStart tEnd status hall h500
    simp only [requestModel, hall]
    rw [if_neg (by simp), if_pos h500]
  · intro cb key nowMs tStart tEnd status hall h500
    simp only [requestModel, hall]
    rw [if_neg (by simp), if_neg (by omega)]
  · intro cb key nowMs tStart tEnd errName hall
    simp only [requestModel, hall]
    rw [if_neg (by simp)]
  · intro cb key nowMs tStart tEnd acq outcome hall
    have he : requestModel cb key nowMs acq outcome tStart tEnd =
        (.circuitOpen ((cb.allow key nowMs).1.retryAfterMs.getD 0),
          (cb.allow key nowMs).2, [.rejected], []) := by
      simp [requestModel, hall]
    refine ⟨he, ?_⟩
    intro k
    rw [he]
    exact window_allow cb key nowMs k
  · intro cb key nowMs tStart tEnd acq outcome hall hacq
    have he : requestModel cb key nowMs acq outcome tStart tEnd =
        (.queueRejected acq, (cb.allow key nowMs).2, [.rejected], []) := by
      simp only [requestModel, hall]
      rw [if_neg (by simp)]
      rcases hacq with h | h <;> rw [h]
    refine ⟨he, ?_⟩
    intro k
    rw [he]
    exact window_allow cb key nowMs k

/-- Witness for C2 at concrete inputs: a fresh CLOSED breaker with a 503
response, a 200 response, and a thrown `RequestTimeoutError`; an OPEN
breaker during cooldown for the `CircuitOpen` path; and a queue-full
rejection on the fresh breaker. -/
theorem pipeline_classification_spec_witness :
    (requestModel (CircuitBreaker.init ⟨50, 20, 1/2, 5000, 3⟩) "svc" 0 .ok
        (.response 503) 10 20 =
      (.completed 503,
        (((CircuitBreaker.init ⟨50, 20, 1/2, 5000, 3⟩).allow "svc" 0).2.onFailure "svc" 20).2,
        [.start] ++
          (if (((CircuitBreaker.init ⟨50, 20, 1/2, 5000, 3⟩).allow "svc" 0).2.onFailure "svc" 20).1.changed then
            [.breakerChange
              (((CircuitBreaker.init ⟨50, 20, 1/2, 5000, 3⟩).allow "svc" 0).2.onFailure "svc" 20).1.fromS
              (((CircuitBreaker.init ⟨50, 20, 1/2, 5000, 3⟩).allow "svc" 0).2.onFailure "svc" 20).1.toS] else []) ++
          [.success 503 (20 - 10)],
        [.s_failure])) ∧
    (requestModel (CircuitBreaker.init ⟨50, 20, 1/2, 5000, 3⟩) "svc" 0 .ok
        (.response 200) 10 20 =
      (.completed 200,
        (((CircuitBreaker.init ⟨50, 20, 1/2, 5000, 3⟩).allow "svc" 0).2.onSuccess "svc").2,
        [.start] ++
          (if (((CircuitBreaker.init ⟨50, 20, 1/2, 5000, 3⟩).allow "svc" 0).2.onSuccess "svc").1.changed then
            [.breakerChange
              (((CircuitBreaker.init ⟨50, 20, 1/2, 5000, 3⟩).allow "svc" 0).2.onSuccess "svc").1.fromS
              (((CircuitBreaker.init ⟨50, 20, 1/2, 5000, 3⟩).allow "svc" 0).2.onSuccess "svc").1.toS] else []) ++
          [.success 200 (20 - 10)],
        [.s_success])) ∧
    (requestModel (CircuitBreaker.init ⟨50, 20, 1/2, 5000, 3⟩) "svc" 0 .ok
        (.thrown "RequestTimeoutError") 10 20 =
      (.errored "RequestTimeoutError",
        (((CircuitBreaker.init ⟨50, 20, 1/2, 5000, 3⟩).allow "svc" 0).2.onFailure "svc" 20).2,
        [.start] ++
          (if (((CircuitBreaker.init ⟨50, 20, 1/2, 5000, 3⟩).allow "svc" 0).2.onFailure "svc" 20).1.changed then
            [.breakerChange
              (((CircuitBreaker.init ⟨50, 20, 1/2, 5000, 3⟩).allow "svc" 0).2.onFailure "svc" 20).1.fromS
              (((CircuitBreaker.init ⟨50, 20, 1/2, 5000, 3⟩).allow "svc" 0).2.onFailure "svc" 20).1.toS] else []) ++
          [.failureEv (20 - 10) "RequestTimeoutError"],
        [.s_failure])) ∧
    (requestModel
        (⟨⟨5, 1, 1, 100, 2⟩, [("svc", ⟨.OPEN, some 1000, 0, RollingWindow.mk0 5, 0, 0⟩)]⟩ :
          CircuitBreaker) "svc" 1050 .ok (.response 200) 1050 1050 =
      (.circuitOpen
          (((⟨⟨5, 1, 1, 100, 2⟩, [("svc", ⟨.OPEN, some 1000, 0, RollingWindow.mk0 5, 0, 0⟩)]⟩ :
            CircuitBreaker).allow "svc" 1050).1.retryAfterMs.getD 0),
        ((⟨⟨5, 1, 1, 100, 2⟩, [("svc", ⟨.OPEN, some 1000, 0, RollingWindow.mk0 5, 0, 0⟩)]⟩ :
          CircuitBreaker).allow "svc" 1050).2, [.rejected], []) ∧
      (∀ k, ((requestModel
          (⟨⟨5, 1, 1, 100, 2⟩, [("svc", ⟨.OPEN, some 1000, 0, RollingWindow.mk0 5, 0, 0⟩)]⟩ :
            CircuitBreaker) "svc" 1050 .ok (.response 200) 1050 1050).2.1.bucket k).window =
        ((⟨⟨5, 1, 1, 100, 2⟩, [("svc", ⟨.OPEN, some 1000, 0, RollingWindow.mk0 5, 0, 0⟩)]⟩ :
          CircuitBreaker).bucket k).window)) ∧
    (requestModel (CircuitBreaker.init ⟨50, 20, 1/2, 5000, 3⟩) "svc" 0 .queueFull
        (.response 200) 10 20 =
      (.queueRejected .queueFull,
        ((CircuitBreaker.init ⟨50, 20, 1/2, 5000, 3⟩).allow "svc" 0).2, [.rejected], []) ∧
      (∀ k, ((requestModel (CircuitBreaker.init ⟨50, 20, 1/2, 5000, 3⟩) "svc" 0 .queueFull
          (.response 200) 10 20).2.1.bucket k).window =
        ((CircuitBreaker.init ⟨50, 20, 1/2, 5000, 3⟩).bucket k).window)) :=
  ⟨pipeline_classification_spec.1 _ "svc" 0 10 20 503 (by decide) (by norm_num),
   pipeline_classification_spec.2.1 _ "svc" 0 10 20 200 (by decide) (by norm_num),
   pipeline_classification_spec.2.2.1 _ "svc" 0 10 20 "RequestTimeoutError" (by decide),
   pipeline_classification_spec.2.2.2.1 _ "svc" 1050 1050 1050 .ok (.response 200)
     (by decide),
   pipeline_classification_spec.2.2.2.2 _ "svc" 0 10 20 .queueFull (.response 200)
     (by decide) (Or.inl rfl)⟩

/-- C1 (code check): a bucket is OPEN with its cooldown expired; the
pipeline's `allow` admits a HALF_OPEN probe (incrementing
`half_open_in_flight` from 0 to 1), the limiter then rejects with
`QueueFull`, and the pipeline issues no breaker signal at all — so
`half_open_in_flight` stays 1 instead of returning to its pre-`allow`
value 0. -/
theorem pipeline_probe_leak :
    ((⟨⟨5, 1, 1, 100, 2⟩, [("svc", ⟨.OPEN, some 1000, 0, RollingWindow.mk0 5, 0, 0⟩)]⟩ :
      CircuitBreaker).bucket "svc").halfOpenInFlight = 0 ∧
    (requestModel
        (⟨⟨5, 1, 1, 100, 2⟩, [("svc", ⟨.OPEN, some 1000, 0, RollingWindow.mk0 5, 0, 0⟩)]⟩ :
          CircuitBreaker) "svc" 1150 .queueFull (.response 200) 1150 1150).1 =
      .queueRejected .queueFull ∧
    (requestModel
        (⟨⟨5, 1, 1, 100, 2⟩, [("svc", ⟨.OPEN, some 1000, 0, RollingWindow.mk0 5, 0, 0⟩)]⟩ :
          CircuitBreaker) "svc" 1150 .queueFull (.response 200) 1150 1150).2.2.2 = [] ∧
    ((requestModel
        (⟨⟨5, 1, 1, 100, 2⟩, [("svc", ⟨.OPEN, some 1000, 0, RollingWindow.mk0 5, 0, 0⟩)]⟩ :
          CircuitBreaker) "svc" 1150 .queueFull (.response 200) 1150 1150).2.1.stateOf
      "svc") = .HALF_OPEN ∧
    ((requestModel
        (⟨⟨5, 1, 1, 100, 2⟩, [("svc", ⟨.OPEN, some 1000, 0, RollingWindow.mk0 5, 0, 0⟩)]⟩ :
          CircuitBreaker) "svc" 1150 .queueFull (.response 200) 1150 1150).2.1.bucket
      "svc").halfOpenInFlight = 1 := by
  decide

end OutboundGuard
